import Mathlib

/-!
Shallow embedding of the decarbfinder pipeline (demand projection, supply-mix
simulation, storage dispatch, scenario optimizer) over exact rational
arithmetic, with the claims of the specification settled as theorems.

Python floats are modelled as `ℚ`; `round(x, n)` is modelled as `pyRound n x`
(round half away from floor, i.e. `⌊x·10ⁿ + 1/2⌋/10ⁿ`; Python uses banker's
rounding at exact half-way points, which the tolerance-style statements below
do not depend on).  Python dicts keyed by source/scenario name are modelled as
association lists with insert-or-overwrite (`dinsert`), which preserves the
insertion order of first occurrence exactly as CPython dicts do.
-/

namespace Decarb

/-- Model of Python's `round(x, n)` on rationals. -/
def pyRound (n : ℕ) (x : ℚ) : ℚ := (round (x * 10 ^ n) : ℚ) / 10 ^ n

lemma abs_pyRound_sub (n : ℕ) (x : ℚ) : |pyRound n x - x| ≤ 1 / (2 * 10 ^ n) := by
  have h10 : (0:ℚ) < 10 ^ n := by positivity
  have h := abs_sub_round (x * 10 ^ n)
  have hrw : pyRound n x - x = ((round (x * 10 ^ n) : ℚ) - x * 10 ^ n) / 10 ^ n := by
    field_simp [pyRound]; ring
  rw [hrw, abs_div, abs_of_pos h10, div_le_div_iff₀ h10 (by positivity)]
  calc |(round (x * 10 ^ n) : ℚ) - x * 10 ^ n| * (2 * 10 ^ n)
      = |x * 10 ^ n - (round (x * 10 ^ n) : ℚ)| * (2 * 10 ^ n) := by rw [abs_sub_comm]
    _ ≤ (1 / 2) * (2 * 10 ^ n) := by
        exact mul_le_mul_of_nonneg_right h (by positivity)
    _ = 10 ^ n := by ring
    _ = 1 * 10 ^ n := by ring

/-! ### Association-list model of Python dicts -/

/-- Lookup in an insertion-ordered dict. -/
def dget {α : Type} (k : String) : List (String × α) → Option α
  | [] => none
  | (k', v) :: rest => if k' = k then some v else dget k rest

/-- Insert-or-overwrite, keeping the position of an existing key
(CPython dict assignment semantics). -/
def dinsert {α : Type} (k : String) (v : α) : List (String × α) → List (String × α)
  | [] => [(k, v)]
  | (k', v') :: rest => if k' = k then (k, v) :: rest else (k', v') :: dinsert k v rest

/-- In-place update of the value at an existing key; no-op when absent
(in the Python source the key is always present where this is used). -/
def dmodify {α : Type} (k : String) (f : α → α) : List (String × α) → List (String × α)
  | [] => []
  | (k', v) :: rest => if k' = k then (k', f v) :: rest else (k', v) :: dmodify k f rest

lemma dget_map {α β : Type} (k : String) (f : String → α → β) :
    ∀ d : List (String × α),
      dget k (d.map fun p => (p.1, f p.1 p.2)) = (dget k d).map (f k)
  | [] => rfl
  | (k', v) :: rest => by
      by_cases h : k' = k
      · subst h; simp [dget]
      · simp [dget, h, dget_map k f rest]

lemma dget_dmodify_ne {α : Type} (k k' : String) (f : α → α) (h : k' ≠ k) :
    ∀ d : List (String × α), dget k (dmodify k' f d) = dget k d
  | [] => rfl
  | (k'', v) :: rest => by
      by_cases h2 : k'' = k'
      · subst h2; simp [dget, dmodify, h]
      · by_cases h3 : k'' = k
        · subst h3; simp [dget, dmodify, h2]
        · simp [dget, dmodify, h2, h3, dget_dmodify_ne k k' f h rest]

lemma dget_dmodify_self {α : Type} (k : String) (f : α → α) :
    ∀ d : List (String × α), dget k (dmodify k f d) = (dget k d).map f
  | [] => rfl
  | (k', v) :: rest => by
      by_cases h : k' = k
      · subst h; simp [dget, dmodify]
      · simp [dget, dmodify, h, dget_dmodify_self k f rest]

/-! ### Module 1: demand projection (`module1_demand.py`) -/

/-- Arguments of `project_annual_demand`. -/
structure DemandParams where
  base_year : ℤ
  base_total_mwh : ℚ
  start_year : ℤ
  end_year : ℤ
  base_growth_rate : ℚ
  population_growth : ℚ
  electrification_uplift : ℚ
  scenario_multiplier : ℚ
deriving Repr

/-- Model of `project_annual_demand` (module1_demand.py, lines 116-138).  Raises become
`Except.error`; the returned dict `{year: demand_mwh}` is the insertion-ordered
list of pairs, built for `year in range(start_year, end_year + 1)`. -/
def projectAnnualDemand (p : DemandParams) : Except String (List (ℤ × ℚ)) :=
  if p.end_year < p.start_year then .error "end_year must be >= start_year"
  else if p.base_total_mwh ≤ 0 then .error "base_total_mwh must be positive"
  else
    let effective_growth : ℚ :=
      (1 + p.base_growth_rate) * (1 + p.population_growth) *
        (1 + p.electrification_uplift) - 1
    .ok ((List.range (p.end_year + 1 - p.start_year).toNat).map fun k =>
      let year := p.start_year + k
      let projected := p.base_total_mwh * (1 + effective_growth) ^ (year - p.base_year)
      (year, projected * p.scenario_multiplier))

/-! ### Module 3: storage dispatch (`module3_storage.py`) -/

/-- Model of `StorageParams` dataclass. -/
structure StorageParams where
  energy_capacity_mwh : ℚ
  power_capacity_mw : ℚ
  round_trip_efficiency : ℚ
  initial_soc_fraction : ℚ
deriving Repr

/-- One row of the Module 2 per-year totals consumed by `dispatch_storage`. -/
structure StorageInRow where
  year : ℤ
  scenario : String
  annual_demand_mwh : ℚ
  energy_generated_mwh : ℚ
deriving Repr

/-- One output row of `dispatch_storage`. -/
structure StorageOutRow where
  year : ℤ
  scenario : String
  annual_demand_mwh : ℚ
  energy_generated_mwh : ℚ
  deficit_mwh : ℚ
  storage_delivered_mwh : ℚ
  unmet_demand_mwh : ℚ
deriving Repr

/-- Row-wise body of `dispatch_storage` (the pandas column operations applied
to a single row; `clip(lower=0)` is `max · 0`, `clip(upper=c)` is `min · c`). -/
def dispatchStorageRow (st : StorageParams) (r : StorageInRow) : StorageOutRow :=
  let deficit := max (r.annual_demand_mwh - r.energy_generated_mwh) 0
  let energy_limit := st.energy_capacity_mwh * st.initial_soc_fraction
  let power_limit := st.power_capacity_mw * 8760
  let deliverable := min energy_limit power_limit
  let delivered_raw := min deficit deliverable
  let delivered := delivered_raw * st.round_trip_efficiency
  { year := r.year
    scenario := r.scenario
    annual_demand_mwh := r.annual_demand_mwh
    energy_generated_mwh := r.energy_generated_mwh
    deficit_mwh := deficit
    storage_delivered_mwh := delivered
    unmet_demand_mwh := max (deficit - delivered) 0 }

/-- Model of `dispatch_storage` (module3_storage.py, lines 66-91): validation raises,
then the row-wise dispatch over the whole frame. -/
def dispatchStorage (rows : List StorageInRow) (st : StorageParams) :
    Except String (List StorageOutRow) :=
  if rows.isEmpty then .error "supply_totals must not be empty"
  else if ¬(0 ≤ st.initial_soc_fraction ∧ st.initial_soc_fraction ≤ 1) then
    .error "initial_soc_fraction must be between 0 and 1"
  else if st.round_trip_efficiency ≤ 0 ∨ 1 < st.round_trip_efficiency then
    .error "round_trip_efficiency must be in (0, 1]"
  else .ok (rows.map (dispatchStorageRow st))

/-! ### Module 2: supply-mix simulation (`module_2_supplyGeneration.py`) -/

/-- Model of `GenerationSource` dataclass. -/
structure GenerationSource where
  name : String
  capacity_mw : ℚ
  capacity_factor : ℚ
  capex_per_mw : ℚ
  opex_per_mwh : ℚ
  emissions_t_per_mwh : ℚ
  lifetime_years : ℤ
deriving Repr, DecidableEq

/-- Model of `annual_energy_capacity` (line 86). -/
def annualEnergyCapacity (s : GenerationSource) : ℚ :=
  s.capacity_mw * s.capacity_factor * 8760

/-- Model of `annualized_capex` (line 89); integer-by-rational division is exact here. -/
def annualizedCapex (s : GenerationSource) : ℚ :=
  s.capex_per_mw * s.capacity_mw / (s.lifetime_years : ℚ)

/-- A source's vintage ledger: `(install_year, capacity_mw)` pairs,
keyed by source name. -/
abbrev Vintages := List (String × List (ℤ × ℚ))

/-- Model of `_build_growth_weights` (lines 103-109). -/
def buildGrowthWeights (sources : List GenerationSource) : List (String × ℚ) :=
  let capacities := sources.foldl (fun d s => dinsert s.name s.capacity_mw d) []
  let total_capacity := (capacities.map Prod.snd).sum
  if total_capacity ≤ 0 then
    capacities.map fun p => (p.1, (1 : ℚ) / (max capacities.length 1 : ℕ))
  else
    capacities.map fun p => (p.1, p.2 / total_capacity)

/-- The comparison key of `_dispatch_order` (lines 112-116): ascending
`(opex_per_mwh, emissions_t_per_mwh)`; Python's `sorted` is a stable sort,
modelled by `List.insertionSort`. -/
def dispatchLE (a b : GenerationSource) : Prop :=
  a.opex_per_mwh < b.opex_per_mwh ∨
    (a.opex_per_mwh = b.opex_per_mwh ∧ a.emissions_t_per_mwh ≤ b.emissions_t_per_mwh)

instance : DecidableRel dispatchLE := fun a b => by unfold dispatchLE; infer_instance

/-- Model of `_dispatch_order` (lines 112-116). -/
def dispatchOrder (sources : List GenerationSource) : List GenerationSource :=
  List.insertionSort dispatchLE sources

/-- Model of `_init_vintages` (lines 119-125): each source starts with one vintage of
its initial capacity dated at the scenario start year. -/
def initVintages (sources : List GenerationSource) (start_year : ℤ) : Vintages :=
  sources.foldl (fun v s => dinsert s.name [(start_year, s.capacity_mw)] v) []

/-- The lifetime looked up through `sources_by_name[name]` inside
`_retire_capacity`; in the simulation the key is always present. -/
def lifetimeOf (sourcesByName : List (String × GenerationSource)) (n : String) : ℤ :=
  ((dget n sourcesByName).map GenerationSource.lifetime_years).getD 0

/-- Model of `_retire_capacity` (lines 128-145): for each source, keep the vintages
with `year - install_year < lifetime` (in order) and sum the capacities of the
rest; returns the updated ledger and the per-source retired capacity. -/
def retireCapacity (v : Vintages) (sourcesByName : List (String × GenerationSource))
    (year : ℤ) : Vintages × List (String × ℚ) :=
  (v.map fun p =>
      (p.1, p.2.filter fun e => year - e.1 < lifetimeOf sourcesByName p.1),
   v.map fun p =>
      (p.1, ((p.2.filter fun e => lifetimeOf sourcesByName p.1 ≤ year - e.1).map
        Prod.snd).sum))

/-- Model of `_current_capacity` (lines 148-149): per-source sum of live vintage
capacities, recomputed from the ledger. -/
def currentCapacity (v : Vintages) : List (String × ℚ) :=
  v.map fun p => (p.1, (p.2.map Prod.snd).sum)

/-- The expansion loop (lines 184-187): for each growth weight, allocate
`growth_needed * weight`, record it in `capacity_added` and append a new
vintage dated at the current year. -/
def expandCapacity (year : ℤ) (growth_needed : ℚ) (weights : List (String × ℚ))
    (st : List (String × ℚ) × Vintages) : List (String × ℚ) × Vintages :=
  weights.foldl
    (fun acc p =>
      let added := growth_needed * p.2
      (dinsert p.1 added acc.1, dmodify p.1 (fun es => es ++ [(year, added)]) acc.2))
    st

/-- One per-source output row (lines 220-235), with the `round` calls applied. -/
structure SourceRow where
  year : ℤ
  source : String
  capacity_mw : ℚ
  capacity_added_mw : ℚ
  capacity_retired_mw : ℚ
  capacity_factor : ℚ
  energy_generated_mwh : ℚ
  annualized_capex : ℚ
  opex : ℚ
  total_cost : ℚ
  emissions_t : ℚ
deriving Repr

/-- One per-year output row (lines 241-253), with the `round` calls applied. -/
structure YearRow where
  year : ℤ
  annual_demand_mwh : ℚ
  energy_generated_mwh : ℚ
  unmet_demand_mwh : ℚ
  required_firm_capacity_mw : ℚ
  total_capacity_mw : ℚ
  total_cost : ℚ
  total_emissions_t : ℚ
deriving Repr

/-- The dispatch loop (lines 205-239): in merit order each source generates
`min(annual energy capacity, remaining demand)`; accumulates remaining demand,
energy, cost and emissions and emits the per-source rows. -/
def dispatchFold (year : ℤ) (capacity_added retired : List (String × ℚ)) :
    List GenerationSource → ℚ × ℚ × ℚ × ℚ × List SourceRow → ℚ × ℚ × ℚ × ℚ × List SourceRow
  | [], acc => acc
  | s :: rest, (remaining, e, c, em, rows) =>
      let potential := annualEnergyCapacity s
      let generated := min potential remaining
      let remaining' := remaining - generated
      let capex := annualizedCapex s
      let opex := generated * s.opex_per_mwh
      let total_cost := capex + opex
      let emissions := generated * s.emissions_t_per_mwh
      let row : SourceRow :=
        { year := year
          source := s.name
          capacity_mw := pyRound 3 s.capacity_mw
          capacity_added_mw := pyRound 3 ((dget s.name capacity_added).getD 0)
          capacity_retired_mw := pyRound 3 ((dget s.name retired).getD 0)
          capacity_factor := s.capacity_factor
          energy_generated_mwh := pyRound 3 generated
          annualized_capex := pyRound 2 capex
          opex := pyRound 2 opex
          total_cost := pyRound 2 total_cost
          emissions_t := pyRound 3 emissions }
      dispatchFold year capacity_added retired rest
        (remaining', e + generated, c + total_cost, em + emissions, rows ++ [row])

/-- One iteration of the per-year loop of `simulate_supply_mix`
(lines 174-253): retirement, required firm capacity, expansion when
`required > total`, rebuilding the sources at current capacity, dispatch, and
the two kinds of output rows.  NOTE the faithful modelling of lines 188-189:
after the expansion loop the code reassigns `total_capacity_mw` from the
still-stale `current_capacities` dict and only afterwards recomputes
`current_capacities` from the ledger, so the reported total is the
pre-expansion one. -/
def stepYear (baseSources : List (String × GenerationSource))
    (growthWeights : List (String × ℚ)) (reserve_margin : ℚ) (v : Vintages)
    (year : ℤ) (annual_demand_mwh : ℚ) : Vintages × YearRow × List SourceRow :=
  let rv := retireCapacity v baseSources year
  let v1 := rv.1
  let retired := rv.2
  let cur1 := currentCapacity v1
  let required_capacity_mw := annual_demand_mwh / 8760 * (1 + reserve_margin)
  let total1 := (cur1.map Prod.snd).sum
  let added0 : List (String × ℚ) := baseSources.map fun p => (p.1, 0)
  let expanded :=
    if required_capacity_mw > total1 then
      let growth_needed := required_capacity_mw - total1
      let av := expandCapacity year growth_needed growthWeights (added0, v1)
      -- line 188: `total_capacity_mw = sum(current_capacities.values())` with
      -- `current_capacities` not yet refreshed; line 189 refreshes it.
      (av.1, av.2, (cur1.map Prod.snd).sum, currentCapacity av.2)
    else (added0, v1, total1, cur1)
  let capacity_added := expanded.1
  let v2 := expanded.2.1
  let total_capacity_mw := expanded.2.2.1
  let cur2 := expanded.2.2.2
  let updated := baseSources.map fun p =>
    { p.2 with capacity_mw := (dget p.1 cur2).getD 0 }
  let d := dispatchFold year capacity_added retired (dispatchOrder updated)
    (annual_demand_mwh, 0, 0, 0, [])
  let remaining_demand := d.1
  let year_energy_total := d.2.1
  let year_cost_total := d.2.2.1
  let year_emissions_total := d.2.2.2.1
  let srows := d.2.2.2.2
  let yrow : YearRow :=
    { year := year
      annual_demand_mwh := pyRound 3 annual_demand_mwh
      energy_generated_mwh := pyRound 3 year_energy_total
      unmet_demand_mwh := pyRound 3 (max remaining_demand 0)
      required_firm_capacity_mw := pyRound 3 required_capacity_mw
      total_capacity_mw := pyRound 3 total_capacity_mw
      total_cost := pyRound 2 year_cost_total
      total_emissions_t := pyRound 3 year_emissions_total }
  (v2, yrow, srows)

/-- The per-year loop over one scenario's (sorted) rows, threading the vintage
ledger. -/
def simLoop (baseSources : List (String × GenerationSource))
    (growthWeights : List (String × ℚ)) (reserve_margin : ℚ) :
    Vintages → List (ℤ × ℚ) → List YearRow × List SourceRow
  | _, [] => ([], [])
  | v, (year, demand) :: rest =>
      let st := stepYear baseSources growthWeights reserve_margin v year demand
      let tail := simLoop baseSources growthWeights reserve_margin st.1 rest
      (st.2.1 :: tail.1, st.2.2 ++ tail.2)

/-- Ascending-by-year ordering of a scenario's rows
(`scenario_df.sort_values("year")`, a stable sort). -/
def yearLE (a b : ℤ × ℚ) : Prop := a.1 ≤ b.1

instance : DecidableRel yearLE := fun a b => by unfold yearLE; infer_instance

/-- The body of `simulate_supply_mix` for a single scenario group
(lines 168-253): sort the rows by year, initialise the vintages at the first
row's year, then run the per-year loop.  `base_sources` and `growth_weights`
are fixed once from the initial source list (lines 165-166). -/
def simulateScenario (sources : List GenerationSource) (reserve_margin : ℚ)
    (rows : List (ℤ × ℚ)) : List YearRow × List SourceRow :=
  let baseSources := sources.foldl (fun d s => dinsert s.name s d) []
  let growthWeights := buildGrowthWeights sources
  let sorted := List.insertionSort yearLE rows
  match sorted with
  | [] => ([], [])
  | (y0, _) :: _ =>
      simLoop baseSources growthWeights reserve_margin (initVintages sources y0) sorted

/-! ### Module 5: scenario optimizer (`module_5_optimizer.py`)

Merged per-year rows may lack storage columns (a left merge leaves `NaN`),
modelled with `Option`.  Pandas aggregation defaults to `skipna=True`:
`sum` ignores missing values, `min` of an all-missing group is missing, and
`GroupBy.all` ignores missing values (an all-missing group is vacuously
`True`). -/

/-- Model of `ReliabilityConfig` dataclass; `mode` is the literal string
`"hard"` or `"penalty"`. -/
structure ReliabilityConfig where
  mode : String
  require_reliability_pass : Bool
  min_reserve_margin : Option ℚ
  max_unmet_demand_mwh : Option ℚ
  penalty_strength : ℚ
deriving Repr

/-- Model of `ScenarioWeights` dataclass. -/
structure ScenarioWeights where
  name : String
  cost_weight : ℚ
  emissions_weight : ℚ
  reliability_penalty : ℚ
  rationale : String
deriving Repr

/-- Model of `SelectionConfig` dataclass. -/
structure SelectionConfig where
  top_k : ℕ
  sensitivity_epsilon : ℚ
deriving Repr

/-- One merged per-year row entering `aggregate_scenarios`; the storage
columns are `Option` because the left merge (or `_ensure_optional_columns`)
can leave them missing. -/
structure MergedRow where
  year : ℤ
  scenario : String
  total_cost : ℚ
  total_emissions_t : ℚ
  unmet_demand_mwh : Option ℚ
  reserve_margin : Option ℚ
  reliability_pass : Option Bool
deriving Repr

/-- One aggregated scenario row. -/
structure SummaryRow where
  scenario : String
  total_cost : ℚ
  total_emissions_t : ℚ
  unmet_demand_mwh : ℚ
  reserve_margin_min : Option ℚ
  reliability_pass : Bool
  reliability_ok : Option Bool := none
deriving Repr

/-- Minimum of a rational series with pandas `skipna=True`: missing values are
ignored; an all-missing series has a missing minimum. -/
def optMin (xs : List (Option ℚ)) : Option ℚ :=
  match xs.filterMap id with
  | [] => none
  | x :: rest => some (rest.foldl min x)

/-- Pandas `GroupBy.all` with its default `skipna=True`: missing values are
skipped, so they never fail the conjunction and an all-missing group is
vacuously `True` (module_5_optimizer.py, line 137). -/
def groupAll (xs : List (Option Bool)) : Bool :=
  (xs.filterMap id).all id

/-- Scenario keys in order of first appearance (`groupby(..., sort=False)`). -/
def scenarioKeys (rows : List MergedRow) : List String :=
  rows.foldl (fun acc r => if r.scenario ∈ acc then acc else acc ++ [r.scenario]) []

/-- Ascending ordering of summary rows by scenario name
(`sort_values("scenario")`, stable). -/
def summaryLE (a b : SummaryRow) : Prop := a.scenario ≤ b.scenario

instance : DecidableRel summaryLE := fun a b => by unfold summaryLE; infer_instance

/-- Model of `aggregate_scenarios` (lines 129-141): per-scenario sums of cost,
emissions and unmet demand, minimum reserve margin, and the `all`-reduction of
`reliability_pass`; result sorted by scenario name. -/
def aggregateScenarios (rows : List MergedRow) : Except String (List SummaryRow) :=
  let summary := (scenarioKeys rows).map fun k =>
    let group := rows.filter fun r => r.scenario = k
    { scenario := k
      total_cost := (group.map MergedRow.total_cost).sum
      total_emissions_t := (group.map MergedRow.total_emissions_t).sum
      unmet_demand_mwh := ((group.map MergedRow.unmet_demand_mwh).filterMap id).sum
      reserve_margin_min := optMin (group.map MergedRow.reserve_margin)
      reliability_pass := groupAll (group.map MergedRow.reliability_pass)
      : SummaryRow }
  if summary.isEmpty then .error "No scenarios available after aggregation."
  else .ok (List.insertionSort summaryLE summary)

/-- Model of `_validate_weights` (lines 152-159); the float literal `1e-6` is the
tolerance `1/1000000`. -/
def validateWeights (w : ScenarioWeights) : Except String Unit :=
  if w.cost_weight < 0 ∨ w.emissions_weight < 0 then
    .error "Weights must be non-negative."
  else if |w.cost_weight + w.emissions_weight - 1| > 1 / 1000000 then
    .error "Weights must sum to 1.0."
  else .ok ()

/-- Model of `apply_reliability_rule` (lines 187-210).  The aggregated
`reliability_pass` column is boolean (never missing), so the `fillna(False)`
there is the identity; a missing `reserve_margin_min` fails the `>=`
comparison, as a pandas `NaN` comparison does. -/
def applyReliabilityRule (summary : List SummaryRow) (rel : ReliabilityConfig) :
    Except String (List SummaryRow) :=
  let result := summary.map fun s =>
    let passes0 := s.reliability_pass
    let passes1 :=
      match rel.min_reserve_margin with
      | none => passes0
      | some m => passes0 && (match s.reserve_margin_min with
          | none => false
          | some x => decide (m ≤ x))
    let passes2 :=
      match rel.max_unmet_demand_mwh with
      | none => passes1
      | some m => passes1 && decide (s.unmet_demand_mwh ≤ m)
    { s with reliability_ok := some passes2 }
  if rel.mode = "hard" then
    let kept := result.filter fun s => s.reliability_ok.getD false
    if kept.isEmpty then .error "No scenarios meet the reliability rule."
    else .ok kept
  else if rel.mode = "penalty" then .ok result
  else .error "Reliability mode must be hard or penalty."

/-- Series minimum / maximum over a non-empty frame column (pandas
`Series.min` / `Series.max`); the empty case cannot arise after aggregation. -/
def qmin : List ℚ → ℚ
  | [] => 0
  | x :: rest => rest.foldl min x

def qmax : List ℚ → ℚ
  | [] => 0
  | x :: rest => rest.foldl max x

/-- Model of `_min_max` (lines 144-149): all-zero when `max <= min`, else the affine
rescaling to `[0, 1]`. -/
def minMaxList (xs : List ℚ) : List ℚ :=
  let mn := qmin xs
  let mx := qmax xs
  if mx ≤ mn then xs.map fun _ => 0
  else xs.map fun x => (x - mn) / (mx - mn)

/-- A scored scenario row (the columns `score_scenarios` adds). -/
structure ScoredRow where
  scenario : String
  total_cost : ℚ
  total_emissions_t : ℚ
  unmet_demand_mwh : ℚ
  reserve_margin_min : Option ℚ
  reliability_pass : Bool
  reliability_ok : Option Bool
  cost_norm : ℚ
  emissions_norm : ℚ
  base_score : ℚ
  score : ℚ
deriving Repr

/-- Model of `score_scenarios` (lines 213-228): min-max normalise cost and emissions,
weighted sum, and in `"penalty"` mode add `reliability_penalty` for rows whose
`reliability_ok` is not `True`. -/
def scoreScenarios (summary : List SummaryRow) (w : ScenarioWeights)
    (rel : ReliabilityConfig) : List ScoredRow :=
  let costN := minMaxList (summary.map SummaryRow.total_cost)
  let emN := minMaxList (summary.map SummaryRow.total_emissions_t)
  (summary.zip (costN.zip emN)).map fun p =>
    let s := p.1
    let base := w.cost_weight * p.2.1 + w.emissions_weight * p.2.2
    let score :=
      if rel.mode = "penalty" then
        base + (if s.reliability_ok.getD false then 0 else 1) * w.reliability_penalty
      else base
    { scenario := s.scenario
      total_cost := s.total_cost
      total_emissions_t := s.total_emissions_t
      unmet_demand_mwh := s.unmet_demand_mwh
      reserve_margin_min := s.reserve_margin_min
      reliability_pass := s.reliability_pass
      reliability_ok := s.reliability_ok
      cost_norm := p.2.1
      emissions_norm := p.2.2
      base_score := base
      score := score }

/-- The ascending lexicographic ordering of `rank_scenarios`
(lines 231-237): `(score, total_cost, total_emissions_t, scenario)`. -/
def rankLE (a b : ScoredRow) : Prop :=
  a.score < b.score ∨ (a.score = b.score ∧
    (a.total_cost < b.total_cost ∨ (a.total_cost = b.total_cost ∧
      (a.total_emissions_t < b.total_emissions_t ∨
        (a.total_emissions_t = b.total_emissions_t ∧ a.scenario ≤ b.scenario)))))

instance : DecidableRel rankLE := fun a b => by unfold rankLE; infer_instance

instance : IsTotal ScoredRow rankLE :=
  ⟨fun a b => by
    unfold rankLE
    rcases lt_trichotomy a.score b.score with h | h | h
    · exact .inl (.inl h)
    · rcases lt_trichotomy a.total_cost b.total_cost with h2 | h2 | h2
      · exact .inl (.inr ⟨h, .inl h2⟩)
      · rcases lt_trichotomy a.total_emissions_t b.total_emissions_t with h3 | h3 | h3
        · exact .inl (.inr ⟨h, .inr ⟨h2, .inl h3⟩⟩)
        · rcases le_total a.scenario b.scenario with h4 | h4
          · exact .inl (.inr ⟨h, .inr ⟨h2, .inr ⟨h3, h4⟩⟩⟩)
          · exact .inr (.inr ⟨h.symm, .inr ⟨h2.symm, .inr ⟨h3.symm, h4⟩⟩⟩)
        · exact .inr (.inr ⟨h.symm, .inr ⟨h2.symm, .inl h3⟩⟩)
      · exact .inr (.inr ⟨h.symm, .inl h2⟩)
    · exact .inr (.inl h)⟩

instance : IsTrans ScoredRow rankLE :=
  ⟨fun a b c hab hbc => by
    unfold rankLE at *
    rcases hab with h1 | ⟨e1, hab⟩
    · rcases hbc with h2 | ⟨e2, _⟩
      · exact .inl (h1.trans h2)
      · exact .inl (e2 ▸ h1)
    · rcases hbc with h2 | ⟨e2, hbc⟩
      · exact .inl (e1 ▸ h2)
      · refine .inr ⟨e1.trans e2, ?_⟩
        rcases hab with h1 | ⟨f1, hab⟩
        · rcases hbc with h2 | ⟨f2, _⟩
          · exact .inl (h1.trans h2)
          · exact .inl (f2 ▸ h1)
        · rcases hbc with h2 | ⟨f2, hbc⟩
          · exact .inl (f1 ▸ h2)
          · refine .inr ⟨f1.trans f2, ?_⟩
            rcases hab with h1 | ⟨g1, hab⟩
            · rcases hbc with h2 | ⟨g2, _⟩
              · exact .inl (h1.trans h2)
              · exact .inl (g2 ▸ h1)
            · rcases hbc with h2 | ⟨g2, hbc⟩
              · exact .inl (g1 ▸ h2)
              · exact .inr ⟨g1.trans g2, hab.trans hbc⟩⟩

/-- Model of `rank_scenarios` (lines 231-237): stable ascending sort by the
lexicographic key, `rank` = 1-based position. -/
def rankScenarios (scored : List ScoredRow) : List (ScoredRow × ℕ) :=
  (List.insertionSort rankLE scored).enum.map fun p => (p.2, p.1 + 1)

/-- Model of `_sensitivity_flag` (lines 293-297): with fewer than two ranked rows the
result is `(False, 0.0)`; otherwise the gap between the two best scores,
flagged when within epsilon. -/
def sensitivityFlag (scores : List ℚ) (epsilon : ℚ) : Bool × ℚ :=
  match scores with
  | s0 :: s1 :: _ => (decide (s1 - s0 ≤ epsilon), s1 - s0)
  | _ => (false, 0)

/-- One row of the optimizer output for one weight set. -/
structure OutRow where
  row : ScoredRow
  rank : ℕ
  weight_set : String
  sensitivity_flag : Bool
  sensitivity_gap : ℚ
deriving Repr

/-- The body of the per-weight-set loop of `run_optimizer` (lines 334-349):
validate the weights, score, rank, compute the sensitivity flag over the full
ranked score series, and keep the `top_k` rows tagged with the weight-set name
and the sensitivity results. -/
def processWeightSet (summary : List SummaryRow) (rel : ReliabilityConfig)
    (sel : SelectionConfig) (w : ScenarioWeights) : Except String (List OutRow) :=
  match validateWeights w with
  | .error e => .error e
  | .ok _ =>
      let scored := scoreScenarios summary w rel
      let ranked := rankScenarios scored
      let fg := sensitivityFlag (ranked.map fun p => p.1.score) sel.sensitivity_epsilon
      .ok ((ranked.take sel.top_k).map fun p =>
        { row := p.1
          rank := p.2
          weight_set := w.name
          sensitivity_flag := fg.1
          sensitivity_gap := fg.2 })

/-- The whole weight-set loop: the first validation failure aborts the run
with the raised error, exactly as the Python exception does. -/
def runWeightSets (summary : List SummaryRow) (rel : ReliabilityConfig)
    (sel : SelectionConfig) : List ScenarioWeights → Except String (List OutRow)
  | [] => .ok []
  | w :: rest =>
      match processWeightSet summary rel sel w with
      | .error e => .error e
      | .ok out =>
          match runWeightSets summary rel sel rest with
          | .error e => .error e
          | .ok outs => .ok (out ++ outs)

/-! ## Theorems -/

/-- C8: For every source and every simulated year, after the retirement step
every vintage remaining in that source's ledger has age
`current_year − install_year` strictly less than the source's lifetime (a
vintage is removed the first year its age reaches the lifetime, i.e. exactly
the vintages with `age ≥ lifetime` are retired, and their capacity is what is
reported retired); the source's live capacity thereafter equals the sum of the
remaining vintages' capacities. -/
theorem retire_age_invariant (v : Vintages) (bs : List (String × GenerationSource))
    (year : ℤ) (n : String) (s : GenerationSource) (es es' : List (ℤ × ℚ))
    (hs : dget n bs = some s) (hv : dget n v = some es)
    (hes : dget n (retireCapacity v bs year).1 = some es') :
    (∀ p ∈ es', year - p.1 < s.lifetime_years) ∧
    es' = es.filter (fun p => year - p.1 < s.lifetime_years) ∧
    dget n (currentCapacity (retireCapacity v bs year).1) = some ((es'.map Prod.snd).sum) ∧
    dget n (retireCapacity v bs year).2 =
      some (((es.filter fun p => s.lifetime_years ≤ year - p.1).map Prod.snd).sum) := by
  have hl : lifetimeOf bs n = s.lifetime_years := by
    simp [lifetimeOf, hs]
  have h1 : dget n (retireCapacity v bs year).1 =
      some (es.filter fun e => year - e.1 < lifetimeOf bs n) := by
    show dget n (v.map fun p =>
        (p.1, p.2.filter fun e => year - e.1 < lifetimeOf bs p.1)) = _
    rw [dget_map n (fun m es => es.filter fun e => year - e.1 < lifetimeOf bs m) v, hv,
      Option.map_some']
  have hes' : es' = es.filter fun p => year - p.1 < s.lifetime_years := by
    rw [h1, hl] at hes
    exact (Option.some.injEq _ _ ▸ hes.symm)
  refine ⟨?_, hes', ?_, ?_⟩
  · intro p hp
    rw [hes'] at hp
    exact of_decide_eq_true (List.mem_filter.mp hp).2
  · show dget n ((retireCapacity v bs year).1.map fun p =>
        (p.1, (p.2.map Prod.snd).sum)) = _
    rw [dget_map n (fun _ es => (es.map Prod.snd).sum) ((retireCapacity v bs year).1), hes,
      Option.map_some']
  · show dget n (v.map fun p =>
        (p.1, ((p.2.filter fun e => lifetimeOf bs p.1 ≤ year - e.1).map Prod.snd).sum)) = _
    rw [dget_map n
        (fun m es => ((es.filter fun e => lifetimeOf bs m ≤ year - e.1).map Prod.snd).sum) v,
      hv, Option.map_some', hl]

/-- Witness for `retire_age_invariant` at a concrete ledger: one source with
lifetime 20, vintages from 2000 and 2020, retired at year 2025. -/
theorem retire_age_invariant_witness :
    (∀ p ∈ [((2020 : ℤ), (7 : ℚ))], (2025 : ℤ) - p.1 < 20) ∧
    [((2020 : ℤ), (7 : ℚ))] =
      ([((2000 : ℤ), (5 : ℚ)), (2020, 7)].filter fun p => (2025 : ℤ) - p.1 < 20) ∧
    dget "s" (currentCapacity
      (retireCapacity [("s", [((2000 : ℤ), (5 : ℚ)), (2020, 7)])]
        [("s", ⟨"s", 12, 1, 0, 0, 0, 20⟩)] 2025).1) = some 7 ∧
    dget "s" (retireCapacity [("s", [((2000 : ℤ), (5 : ℚ)), (2020, 7)])]
        [("s", ⟨"s", 12, 1, 0, 0, 0, 20⟩)] 2025).2 = some 5 := by
  have h := retire_age_invariant
    [("s", [((2000 : ℤ), (5 : ℚ)), (2020, 7)])]
    [("s", (⟨"s", 12, 1, 0, 0, 0, 20⟩ : GenerationSource))] 2025 "s"
    ⟨"s", 12, 1, 0, 0, 0, 20⟩
    [((2000 : ℤ), (5 : ℚ)), (2020, 7)] [((2020 : ℤ), (7 : ℚ))]
    (by norm_num [dget]) (by norm_num [dget])
    (by norm_num [retireCapacity, dget, lifetimeOf])
  refine ⟨h.1, h.2.1, ?_, ?_⟩
  · have h3 := h.2.2.1
    norm_num at h3
    exact h3
  · have h4 := h.2.2.2
    norm_num at h4
    exact h4

/-- C7: For every input row (with valid `StorageParams`, i.e. a `dispatch_storage`
call that does not raise), the output row satisfies
`deficit = max(annual_demand − energy_generated, 0)`,
`storage_delivered = min(deficit, min(energy_capacity·initial_soc_fraction,
power_capacity·8760)) · round_trip_efficiency` and
`unmet = max(deficit − storage_delivered, 0)`; consequently
`storage_delivered` never exceeds
`min(energy_capacity·initial_soc_fraction, power_capacity·8760) ·
round_trip_efficiency`. -/
theorem dispatchStorage_rows (rows : List StorageInRow) (st : StorageParams)
    (out : List StorageOutRow) (h : dispatchStorage rows st = .ok out) :
    out.length = rows.length ∧
    ∀ (i : ℕ) (hi : i < out.length) (hr : i < rows.length),
      (out.get ⟨i, hi⟩).deficit_mwh =
        max ((rows.get ⟨i, hr⟩).annual_demand_mwh -
          (rows.get ⟨i, hr⟩).energy_generated_mwh) 0 ∧
      (out.get ⟨i, hi⟩).storage_delivered_mwh =
        min (out.get ⟨i, hi⟩).deficit_mwh
          (min (st.energy_capacity_mwh * st.initial_soc_fraction)
            (st.power_capacity_mw * 8760)) * st.round_trip_efficiency ∧
      (out.get ⟨i, hi⟩).unmet_demand_mwh =
        max ((out.get ⟨i, hi⟩).deficit_mwh -
          (out.get ⟨i, hi⟩).storage_delivered_mwh) 0 ∧
      (out.get ⟨i, hi⟩).storage_delivered_mwh ≤
        min (st.energy_capacity_mwh * st.initial_soc_fraction)
          (st.power_capacity_mw * 8760) * st.round_trip_efficiency := by
  have hout : out = rows.map (dispatchStorageRow st) ∧
      0 < st.round_trip_efficiency := by
    unfold dispatchStorage at h
    split_ifs at h with h1 h2 h3 <;> cases h
    push_neg at h3
    exact ⟨rfl, h3.1⟩
  obtain ⟨hmap, hrte⟩ := hout
  subst hmap
  refine ⟨by simp, ?_⟩
  intro i hi hr
  have hget : (rows.map (dispatchStorageRow st)).get ⟨i, hi⟩ =
      dispatchStorageRow st (rows.get ⟨i, hr⟩) := by
    simp
  rw [hget]
  set r := rows.get ⟨i, hr⟩
  refine ⟨rfl, rfl, rfl, ?_⟩
  show min (max (r.annual_demand_mwh - r.energy_generated_mwh) 0)
      (min (st.energy_capacity_mwh * st.initial_soc_fraction)
        (st.power_capacity_mw * 8760)) * st.round_trip_efficiency ≤ _
  exact mul_le_mul_of_nonneg_right (min_le_right _ _) (le_of_lt hrte)

/-- Witness for `dispatchStorage_rows`: one row with a 1500 MWh deficit
against the default storage parameters (2000 MWh, 500 MW, 90 % round-trip,
half initial state of charge); 1000 MWh deliverable limit, 900 MWh
delivered. -/
theorem dispatchStorage_rows_witness :
    ([({ year := 2025, scenario := "a", annual_demand_mwh := 2500,
         energy_generated_mwh := 1000, deficit_mwh := 1500,
         storage_delivered_mwh := 900, unmet_demand_mwh := 600 } : StorageOutRow)].get
      ⟨0, by norm_num⟩).storage_delivered_mwh ≤
      min ((2000 : ℚ) * (1/2)) (500 * 8760) * (9/10) := by
  have h := dispatchStorage_rows
    [({ year := 2025, scenario := "a", annual_demand_mwh := 2500,
        energy_generated_mwh := 1000 } : StorageInRow)]
    ⟨2000, 500, 9/10, 1/2⟩
    [({ year := 2025, scenario := "a", annual_demand_mwh := 2500,
        energy_generated_mwh := 1000, deficit_mwh := 1500,
        storage_delivered_mwh := 900, unmet_demand_mwh := 600 } : StorageOutRow)]
    (by norm_num [dispatchStorage, dispatchStorageRow])
  exact (h.2 0 (by norm_num) (by norm_num)).2.2.2

/-- C6 (amended): for every call of `project_annual_demand` whose validation
passes (`end_year ≥ start_year`, `base_total_mwh > 0`), whose growth rates
`base_growth_rate`, `population_growth`, `electrification_uplift` are all
non-negative, **and whose `scenario_multiplier` is non-negative** (the default
is `1.0` and the function never validates it), the returned demand series is
non-decreasing in year. -/
theorem projectAnnualDemand_monotone (p : DemandParams) (l : List (ℤ × ℚ))
    (hok : projectAnnualDemand p = .ok l)
    (hb : 0 ≤ p.base_growth_rate) (hpg : 0 ≤ p.population_growth)
    (he : 0 ≤ p.electrification_uplift) (hm : 0 ≤ p.scenario_multiplier) :
    ∀ q1 ∈ l, ∀ q2 ∈ l, q1.1 ≤ q2.1 → q1.2 ≤ q2.2 := by
  unfold projectAnnualDemand at hok
  split_ifs at hok with h1 h2 <;> cases hok
  push_neg at h2
  intro q1 hq1 q2 hq2 hle
  obtain ⟨k1, _, hf1⟩ := List.mem_map.mp hq1
  obtain ⟨k2, _, hf2⟩ := List.mem_map.mp hq2
  have hA : (1 : ℚ) ≤ 1 + ((1 + p.base_growth_rate) * (1 + p.population_growth) *
      (1 + p.electrification_uplift) - 1) := by
    nlinarith [mul_nonneg hb hpg, mul_nonneg hb he, mul_nonneg hpg he,
      mul_nonneg (mul_nonneg hb hpg) he]
  have hy1 : q1.1 = p.start_year + k1 := by rw [← hf1]
  have hy2 : q2.1 = p.start_year + k2 := by rw [← hf2]
  have hd1 : q1.2 = p.base_total_mwh *
      (1 + ((1 + p.base_growth_rate) * (1 + p.population_growth) *
        (1 + p.electrification_uplift) - 1)) ^ (q1.1 - p.base_year) *
      p.scenario_multiplier := by rw [hy1, ← hf1]
  have hd2 : q2.2 = p.base_total_mwh *
      (1 + ((1 + p.base_growth_rate) * (1 + p.population_growth) *
        (1 + p.electrification_uplift) - 1)) ^ (q2.1 - p.base_year) *
      p.scenario_multiplier := by rw [hy2, ← hf2]
  rw [hd1, hd2]
  refine mul_le_mul_of_nonneg_right (mul_le_mul_of_nonneg_left ?_ h2.le) hm
  exact zpow_le_zpow_right₀ hA (by omega)

/-- Witness for `projectAnnualDemand_monotone`: base 1 MWh in 2020, 100 %
effective growth, multiplier 1: the series `[(2020, 1), (2021, 2)]` is
non-decreasing. -/
theorem projectAnnualDemand_monotone_witness :
    projectAnnualDemand ⟨2020, 1, 2020, 2021, 1, 0, 0, 1⟩ = .ok [(2020, 1), (2021, 2)] ∧
    (((2020 : ℤ), (1 : ℚ))).2 ≤ (((2021 : ℤ), (2 : ℚ))).2 := by
  have hok : projectAnnualDemand ⟨2020, 1, 2020, 2021, 1, 0, 0, 1⟩ =
      .ok [(2020, 1), (2021, 2)] := by
    norm_num [projectAnnualDemand, show Int.toNat 2 = 2 from rfl, List.range_succ,
      List.flatMap_cons, List.flatMap_nil]
  refine ⟨hok, ?_⟩
  exact projectAnnualDemand_monotone ⟨2020, 1, 2020, 2021, 1, 0, 0, 1⟩
    [(2020, 1), (2021, 2)] hok (by norm_num) (by norm_num) (by norm_num) (by norm_num)
    (2020, 1) (by norm_num) (2021, 2) (by norm_num) (by norm_num)

/-- C6 counterexample: `project_annual_demand` never validates
`scenario_multiplier`.  With `base_year=2020, base_total_mwh=1,
start=2020, end=2021, base_growth_rate=1` (population and electrification 0,
all non-negative) and `scenario_multiplier=-1`, validation passes and the
series is `[(2020, -1), (2021, -2)]`, which is strictly decreasing — so the
claim that non-negative growth rates alone force a non-decreasing series is
false. -/
theorem projectAnnualDemand_not_monotone :
    projectAnnualDemand ⟨2020, 1, 2020, 2021, 1, 0, 0, -1⟩ =
      .ok [(2020, -1), (2021, -2)] ∧
    (0 : ℚ) ≤ 1 ∧ ((2020 : ℤ) ≤ 2021) ∧ ¬ ((-1 : ℚ) ≤ -2) := by
  refine ⟨?_, by norm_num, by norm_num, by norm_num⟩
  norm_num [projectAnnualDemand, show Int.toNat 2 = 2 from rfl, List.range_succ,
    List.flatMap_cons, List.flatMap_nil]

/-- C9: `run_optimizer` validates every weight set before scoring: weights are
accepted exactly when both are non-negative and their sum is within `1e-6` of
`1.0`; a rejected weight set makes `processWeightSet` return the validation
error without scoring, and a run whose weight-set list contains an invalid set
aborts with a validation error. -/
theorem validateWeights_spec (w : ScenarioWeights) :
    (validateWeights w = .ok () ↔
      0 ≤ w.cost_weight ∧ 0 ≤ w.emissions_weight ∧
        |w.cost_weight + w.emissions_weight - 1| ≤ 1 / 1000000) ∧
    (∀ e, validateWeights w = .error e →
      ∀ (summary : List SummaryRow) (rel : ReliabilityConfig) (sel : SelectionConfig),
        processWeightSet summary rel sel w = .error e) ∧
    (∀ (summary : List SummaryRow) (rel : ReliabilityConfig) (sel : SelectionConfig)
        (ws : List ScenarioWeights), w ∈ ws → validateWeights w ≠ .ok () →
      ∃ e, runWeightSets summary rel sel ws = .error e) := by
  refine ⟨?_, ?_, ?_⟩
  · unfold validateWeights
    split_ifs with h1 h2
    · refine iff_of_false (by simp) ?_
      rintro ⟨ha, hb, _⟩
      rcases h1 with h | h <;> linarith
    · refine iff_of_false (by simp) ?_
      rintro ⟨_, _, h3⟩
      linarith
    · push_neg at h1 h2
      exact iff_of_true rfl ⟨h1.1, h1.2, h2⟩
  · intro e he summary rel sel
    simp [processWeightSet, he]
  · intro summary rel sel ws hmem hne
    induction ws with
    | nil => cases hmem
    | cons w' rest ih =>
        rcases List.mem_cons.mp hmem with heq | htail
        · subst heq
          cases hval : validateWeights w with
          | ok u => exact absurd (by cases u; exact hval) hne
          | error e =>
              exact ⟨e, by simp [runWeightSets, processWeightSet, hval]⟩
        · cases hps : processWeightSet summary rel sel w' with
          | error e => exact ⟨e, by simp [runWeightSets, hps]⟩
          | ok out =>
              obtain ⟨e, he⟩ := ih htail
              refine ⟨e, ?_⟩
              simp only [runWeightSets, hps, he]

/-- Witness for `validateWeights_spec`: the weight set
`cost_weight=0.6, emissions_weight=0.5` (sum `1.1`) is rejected and aborts the
weight-set loop. -/
theorem validateWeights_spec_witness :
    validateWeights ⟨"invalid", 3/5, 1/2, 1, ""⟩ ≠ .ok () ∧
    runWeightSets [] ⟨"hard", true, none, none, 1⟩ ⟨3, 1/50⟩
      [⟨"invalid", 3/5, 1/2, 1, ""⟩] = .error "Weights must sum to 1.0." := by
  have habs : |(1 : ℚ)/10| = 1/10 := abs_of_pos (by norm_num)
  have hval : validateWeights ⟨"invalid", 3/5, 1/2, 1, ""⟩ =
      .error "Weights must sum to 1.0." := by
    norm_num [validateWeights, habs]
  have hiff := (validateWeights_spec ⟨"invalid", 3/5, 1/2, 1, ""⟩).1
  have hp := (validateWeights_spec ⟨"invalid", 3/5, 1/2, 1, ""⟩).2.1 _ hval
    [] ⟨"hard", true, none, none, 1⟩ ⟨3, 1/50⟩
  refine ⟨?_, by simp only [runWeightSets]; rw [hp]⟩
  intro hc
  have h3 := (hiff.mp hc).2.2
  norm_num [habs] at h3

/-- C2 (code bug): the aggregation reduces `reliability_pass` with pandas
`GroupBy.all`, whose default `skipna=True` *skips* missing per-year flags
instead of treating them as failing.  For scenario `"a"` with per-year flags
`[True, missing]` (the 2026 storage row absent after the left merge) the
aggregated `reliability_pass` is `True` — and the scenario then clears the
default hard reliability rule — whereas an AND that treats a missing flag as
failing yields `False`.  The scenario-level `fillna(False)` in
`apply_reliability_rule` never fires because the aggregate is always boolean. -/
theorem aggregate_reliability_skips_missing :
    aggregateScenarios [⟨2025, "a", 1, 2, some 0, some 1, some true⟩,
      ⟨2026, "a", 1, 2, none, none, none⟩] =
      .ok [⟨"a", 2, 4, 0, some 1, true, none⟩] ∧
    groupAll [some true, none] = true ∧
    ([some true, (none : Option Bool)].all fun o => o.getD false) = false ∧
    applyReliabilityRule [⟨"a", 2, 4, 0, some 1, true, none⟩]
      ⟨"hard", true, some (3/20), some 0, 1⟩ =
      .ok [⟨"a", 2, 4, 0, some 1, true, some true⟩] := by
  refine ⟨?_, by norm_num [groupAll], by norm_num, ?_⟩
  · norm_num [aggregateScenarios, scenarioKeys, groupAll, optMin, List.insertionSort,
      List.orderedInsert, summaryLE, List.filterMap_cons, List.filterMap_nil]
  · norm_num [applyReliabilityRule]


/-- Two rows comparing below each other under the ranking order share all four
key fields; in particular their scenario names coincide. -/
lemma rankLE_antisymm_scenario {a b : ScoredRow} (hab : rankLE a b) (hba : rankLE b a) :
    a.scenario = b.scenario := by
  unfold rankLE at hab hba
  rcases hab with h1 | ⟨e1, hab⟩ <;> rcases hba with h2 | ⟨e2, hba⟩ <;> try linarith
  rcases hab with h1 | ⟨f1, hab⟩ <;> rcases hba with h2 | ⟨f2, hba⟩ <;> try linarith
  rcases hab with h1 | ⟨g1, hab⟩ <;> rcases hba with h2 | ⟨g2, hba⟩ <;> try linarith
  exact le_antisymm hab hba

/-- C5: `rank_scenarios` orders the scored scenario set ascending
lexicographically by `(score, total_cost, total_emissions_t, scenario)` and
assigns `rank` as the 1-based position: the output rows are a permutation of
the input, sorted under `rankLE`, the `i`-th row carries rank `i+1`, and — for
any input with distinct scenario names — consecutive rows are *strictly*
increasing in the lexicographic key, so the order is total and deterministic
(ties in score are broken by ascending cost, then emissions, then scenario
name). -/
theorem rankScenarios_spec (scored : List ScoredRow) :
    ((rankScenarios scored).map Prod.fst).Perm scored ∧
    ((rankScenarios scored).map Prod.fst).Sorted rankLE ∧
    (∀ (i : ℕ) (h : i < (rankScenarios scored).length),
      ((rankScenarios scored).get ⟨i, h⟩).2 = i + 1) ∧
    ((scored.map ScoredRow.scenario).Nodup →
      ((rankScenarios scored).map Prod.fst).Pairwise
        fun a b => rankLE a b ∧ ¬ rankLE b a) := by
  have hmap : (rankScenarios scored).map Prod.fst = List.insertionSort rankLE scored := by
    simp only [rankScenarios, List.map_map]
    have : (Prod.fst ∘ fun p : ℕ × ScoredRow => (p.2, p.1 + 1)) = Prod.snd := rfl
    rw [this, List.enum_map_snd]
  refine ⟨?_, ?_, ?_, ?_⟩
  · rw [hmap]; exact List.perm_insertionSort rankLE scored
  · rw [hmap]; exact List.sorted_insertionSort rankLE scored
  · intro i h
    have h2 : i < (List.insertionSort rankLE scored).enum.length := by
      simpa [rankScenarios] using h
    simp [rankScenarios, List.getElem_enum]
  · intro hnodup
    have hperm : List.Perm (List.insertionSort rankLE scored) scored :=
      List.perm_insertionSort rankLE scored
    have hnd : ((List.insertionSort rankLE scored).map ScoredRow.scenario).Nodup :=
      (hperm.map ScoredRow.scenario).nodup_iff.mpr hnodup
    have hpne : (List.insertionSort rankLE scored).Pairwise
        (fun a b => a.scenario ≠ b.scenario) := List.pairwise_map.mp hnd
    have hps : (List.insertionSort rankLE scored).Pairwise rankLE :=
      List.sorted_insertionSort rankLE scored
    rw [hmap]
    exact (hps.and hpne).imp fun h =>
      ⟨h.1, fun hba => h.2 (rankLE_antisymm_scenario h.1 hba)⟩

/-- Witness for `rankScenarios_spec`: two rows with equal scores and distinct
names; the ranking is strictly increasing in the lexicographic key. -/
theorem rankScenarios_spec_witness :
    ((rankScenarios
      [⟨"b", 2, 5, 0, none, true, none, 0, 0, 0, 0⟩,
       ⟨"a", 1, 9, 0, none, true, none, 0, 0, 0, 0⟩]).map Prod.fst).Pairwise
      (fun a b => rankLE a b ∧ ¬ rankLE b a) :=
  (rankScenarios_spec
    [⟨"b", 2, 5, 0, none, true, none, 0, 0, 0, 0⟩,
     ⟨"a", 1, 9, 0, none, true, none, 0, 0, 0, 0⟩]).2.2.2 (by decide)

/-- C10: when exactly one scenario row reaches the scoring stage, the
per-weight-set pipeline does not fail: for every weight set passing
validation (and any `top_k ≥ 1`) it emits exactly the single ranked row, with
rank 1, tagged `sensitivity_flag = false` and `sensitivity_gap = 0` — the
fewer-than-two-scenarios case of `_sensitivity_flag` is defined, not an
error. -/
theorem processWeightSet_single (s : SummaryRow) (rel : ReliabilityConfig)
    (sel : SelectionConfig) (w : ScenarioWeights)
    (hv : validateWeights w = .ok ()) (hk : 1 ≤ sel.top_k) :
    (processWeightSet [s] rel sel w).map (List.map fun o =>
      (o.rank, o.weight_set, o.sensitivity_flag, o.sensitivity_gap, o.row.scenario)) =
    .ok [(1, w.name, false, (0 : ℚ), s.scenario)] := by
  unfold processWeightSet
  rw [hv]
  have htake : ∀ p : ScoredRow × ℕ, List.take sel.top_k [p] = [p] :=
    fun p => List.take_of_length_le (by simpa using hk)
  simp [scoreScenarios, minMaxList, qmin, qmax, rankScenarios, sensitivityFlag,
    List.insertionSort, List.orderedInsert, htake, Except.map]

/-- Witness for `processWeightSet_single`: a lone scenario `"a"` scored under
the balanced weight set with default selection parameters. -/
theorem processWeightSet_single_witness :
    (processWeightSet [⟨"a", 2, 4, 0, some 1, true, some true⟩]
      ⟨"hard", true, some (3/20), some 0, 1⟩ ⟨3, 1/50⟩
      ⟨"balanced", 1/2, 1/2, 1, "even"⟩).map (List.map fun o =>
        (o.rank, o.weight_set, o.sensitivity_flag, o.sensitivity_gap, o.row.scenario)) =
    .ok [(1, "balanced", false, (0 : ℚ), "a")] :=
  processWeightSet_single ⟨"a", 2, 4, 0, some 1, true, some true⟩
    ⟨"hard", true, some (3/20), some 0, 1⟩ ⟨3, 1/50⟩ ⟨"balanced", 1/2, 1/2, 1, "even"⟩
    (by norm_num [validateWeights]) (by norm_num)

/-! ### Infrastructure for the supply-mix theorems -/

lemma dispatchFold_acc (year : ℤ) (ca ret : List (String × ℚ)) :
    ∀ (l : List GenerationSource) (rem e c em : ℚ) (rows : List SourceRow),
      (dispatchFold year ca ret l (rem, e, c, em, rows)).1 +
        (dispatchFold year ca ret l (rem, e, c, em, rows)).2.1 = rem + e ∧
      (0 ≤ rem → 0 ≤ (dispatchFold year ca ret l (rem, e, c, em, rows)).1)
  | [], rem, e, c, em, rows => ⟨rfl, fun h => h⟩
  | s :: rest, rem, e, c, em, rows => by
      simp only [dispatchFold]
      obtain ⟨ih1, ih2⟩ := dispatchFold_acc year ca ret rest
        (rem - min (annualEnergyCapacity s) rem)
        (e + min (annualEnergyCapacity s) rem)
        (c + (annualizedCapex s + min (annualEnergyCapacity s) rem * s.opex_per_mwh))
        (em + min (annualEnergyCapacity s) rem * s.emissions_t_per_mwh) _
      constructor
      · rw [ih1]; ring
      · intro h
        exact ih2 (sub_nonneg.mpr (min_le_right _ _))

lemma round_balance (E R d : ℚ) (hER : R + E = d) (hR : 0 ≤ R) :
    |pyRound 3 E + pyRound 3 (max R 0) - pyRound 3 d| ≤ 3 / 2000 := by
  have hE := abs_pyRound_sub 3 E
  have hRr := abs_pyRound_sub 3 R
  have hD := abs_pyRound_sub 3 d
  rw [max_eq_left hR]
  have h1 : (1 : ℚ) / (2 * 10 ^ 3) = 1 / 2000 := by norm_num
  rw [h1] at hE hRr hD
  have hrw : pyRound 3 E + pyRound 3 R - pyRound 3 d =
      (pyRound 3 E - E) + (pyRound 3 R - R) - (pyRound 3 d - d) := by
    rw [← hER]; ring
  have habs : |pyRound 3 E + pyRound 3 R - pyRound 3 d| ≤
      |pyRound 3 E - E| + |pyRound 3 R - R| + |pyRound 3 d - d| := by
    rw [hrw, sub_eq_add_neg]
    refine (abs_add _ _).trans ?_
    rw [abs_neg]
    exact add_le_add (abs_add _ _) le_rfl
  linarith

lemma simLoop_mem (bs : List (String × GenerationSource)) (gw : List (String × ℚ))
    (rm : ℚ) :
    ∀ (l : List (ℤ × ℚ)) (v : Vintages) (row : YearRow),
      row ∈ (simLoop bs gw rm v l).1 →
      ∃ y d v0, (y, d) ∈ l ∧ row = (stepYear bs gw rm v0 y d).2.1
  | [], v, row, h => by simp [simLoop] at h
  | (y, d) :: rest, v, row, h => by
      simp only [simLoop, List.mem_cons] at h
      rcases h with h | h
      · exact ⟨y, d, v, List.mem_cons_self _ _, h⟩
      · obtain ⟨y', d', v0, hmem, heq⟩ :=
          simLoop_mem bs gw rm rest (stepYear bs gw rm v y d).1 row h
        exact ⟨y', d', v0, List.mem_cons_of_mem _ hmem, heq⟩

lemma stepYear_balance (bs : List (String × GenerationSource))
    (gw : List (String × ℚ)) (rm : ℚ) (v : Vintages) (year : ℤ) (demand : ℚ)
    (hd : 0 ≤ demand) :
    |(stepYear bs gw rm v year demand).2.1.energy_generated_mwh +
      (stepYear bs gw rm v year demand).2.1.unmet_demand_mwh -
      (stepYear bs gw rm v year demand).2.1.annual_demand_mwh| ≤ 3 / 2000 := by
  have key : ∀ D : ℚ × ℚ × ℚ × ℚ × List SourceRow,
      D.1 + D.2.1 = demand + 0 → (0 ≤ demand → 0 ≤ D.1) →
      |pyRound 3 D.2.1 + pyRound 3 (max D.1 0) - pyRound 3 demand| ≤ 3 / 2000 := by
    intro D h1 h2
    exact round_balance D.2.1 D.1 demand (by linarith) (h2 hd)
  simp only [stepYear]
  exact key _ (dispatchFold_acc _ _ _ _ _ _ _ _ _).1 (dispatchFold_acc _ _ _ _ _ _ _ _ _).2

/-- C3: for every scenario input whose yearly demands are non-negative, every
per-year row produced by the supply-mix simulation satisfies
`energy_generated_mwh + unmet_demand_mwh = annual_demand_mwh` up to the
rounding of the three reported columns (each rounded to 3 decimals, so the
discrepancy is at most `3/2000`); dispatch gives each source
`min(annual energy capacity, remaining demand)` and unmet demand is
`max(remaining demand, 0)`. -/
theorem simulate_energy_balance (sources : List GenerationSource) (rm : ℚ)
    (rows : List (ℤ × ℚ)) (hd : ∀ p ∈ rows, 0 ≤ p.2) :
    ∀ row ∈ (simulateScenario sources rm rows).1,
      |row.energy_generated_mwh + row.unmet_demand_mwh - row.annual_demand_mwh| ≤
        3 / 2000 := by
  intro row hrow
  unfold simulateScenario at hrow
  rcases hsort : List.insertionSort yearLE rows with _ | ⟨⟨y0, d0⟩, rest⟩ <;>
    rw [hsort] at hrow <;> dsimp only at hrow
  · simp at hrow
  · obtain ⟨y, d, v0, hmem, heq⟩ := simLoop_mem _ _ _ _ _ _ hrow
    have hmem' : (y, d) ∈ rows := by
      have hperm := List.perm_insertionSort yearLE rows
      rw [hsort] at hperm
      exact hperm.mem_iff.mp hmem
    have hd' : 0 ≤ d := hd (y, d) hmem'
    rw [heq]
    exact stepYear_balance _ _ rm v0 y d hd'

/-- Witness for `simulate_energy_balance`: a one-source, one-year scenario; the
reported energy plus unmet demand matches the demand exactly. -/
theorem simulate_energy_balance_witness :
    |(1752000 : ℚ) + 0 - 1752000| ≤ 3 / 2000 := by
  have h := simulate_energy_balance [⟨"s", 100, 1, 0, 0, 0, 30⟩] 0 [(2025, 1752000)]
    (by norm_num)
  have hrow : (⟨2025, 1752000, 1752000, 0, 200, 100, 0, 0⟩ : YearRow) ∈
      (simulateScenario [⟨"s", 100, 1, 0, 0, 0, 30⟩] 0 [(2025, 1752000)]).1 := by
    norm_num [simulateScenario, List.insertionSort, List.orderedInsert, simLoop,
      stepYear, initVintages, dinsert, buildGrowthWeights, retireCapacity,
      currentCapacity, lifetimeOf, dget, expandCapacity, dmodify, dispatchOrder,
      dispatchFold, annualEnergyCapacity, annualizedCapex, pyRound, round_eq]
  simpa using h _ hrow

/-- C1 (code bug, lines 188-189 of module_2_supplyGeneration.py): in a year
where expansion occurs, the emitted `total_capacity_mw` is recomputed from the
*stale* pre-expansion `current_capacities` dict (the dict is refreshed only on
the next line), so it reports the pre-expansion total.  Concretely: one source
of 100 MW (capacity factor 1, lifetime 30), reserve margin 0, one year 2025
with demand 1 752 000 MWh, so `required_firm_capacity_mw = 200`.  The fleet is
expanded to 200 MW of live vintages — dispatch even generates at the expanded
200 MW — yet the per-year row reports `total_capacity_mw = 100`, below the
live-vintage sum (200) and below `required_firm_capacity_mw` (200),
contradicting the claim that the reported total equals the post-expansion live
sum and meets the reserve-margin target. -/
theorem total_capacity_reported_stale :
    (simulateScenario [⟨"s", 100, 1, 0, 0, 0, 30⟩] 0 [(2025, 1752000)]).1 =
      [⟨2025, 1752000, 1752000, 0, 200, 100, 0, 0⟩] ∧
    currentCapacity (stepYear [("s", ⟨"s", 100, 1, 0, 0, 0, 30⟩)]
        (buildGrowthWeights [⟨"s", 100, 1, 0, 0, 0, 30⟩]) 0
        (initVintages [⟨"s", 100, 1, 0, 0, 0, 30⟩] 2025) 2025 1752000).1 =
      [("s", 200)] ∧
    ¬ ((200 : ℚ) ≤ 100) := by
  refine ⟨?_, ?_, by norm_num⟩
  · norm_num [simulateScenario, List.insertionSort, List.orderedInsert, simLoop,
      stepYear, initVintages, dinsert, buildGrowthWeights, retireCapacity,
      currentCapacity, lifetimeOf, dget, expandCapacity, dmodify, dispatchOrder,
      dispatchFold, annualEnergyCapacity, annualizedCapex, pyRound, round_eq]
  · norm_num [stepYear, initVintages, dinsert, buildGrowthWeights, retireCapacity,
      currentCapacity, lifetimeOf, dget, expandCapacity, dmodify, dispatchOrder,
      dispatchFold, annualEnergyCapacity, annualizedCapex, pyRound, round_eq,
      List.insertionSort, List.orderedInsert]

/-! ### Dict-fold lemmas for the expansion step -/

lemma dinsert_ne_nil {α : Type} (k : String) (v : α) (d : List (String × α)) :
    dinsert k v d ≠ [] := by
  cases d with
  | nil => simp [dinsert]
  | cons p rest =>
      obtain ⟨k', v'⟩ := p
      by_cases h : k' = k <;> simp [dinsert, h]

lemma foldl_dinsert_ne_nil {α : Type} (f : GenerationSource → α) :
    ∀ (l : List GenerationSource) (init : List (String × α)),
      init ≠ [] → l.foldl (fun d s => dinsert s.name (f s) d) init ≠ []
  | [], _, h => h
  | _ :: rest, _, _ => foldl_dinsert_ne_nil f rest _ (dinsert_ne_nil _ _ _)

lemma keys_dinsert {α : Type} (k : String) (v : α) (d : List (String × α)) :
    (dinsert k v d).map Prod.fst =
      if k ∈ d.map Prod.fst then d.map Prod.fst else d.map Prod.fst ++ [k] := by
  induction d with
  | nil => simp [dinsert]
  | cons p rest ih =>
      obtain ⟨k', v'⟩ := p
      by_cases h : k' = k
      · subst h
        simp [dinsert]
      · have hne : ¬ k = k' := fun hh => h hh.symm
        simp only [dinsert, if_neg h, List.map_cons, List.mem_cons, hne, false_or, ih]
        split_ifs <;> simp

lemma nodup_keys_dinsert {α : Type} (k : String) (v : α) (d : List (String × α))
    (h : (d.map Prod.fst).Nodup) : ((dinsert k v d).map Prod.fst).Nodup := by
  rw [keys_dinsert]
  split_ifs with hmem
  · exact h
  · refine h.append (List.nodup_singleton k) ?_
    intro a ha hb
    rw [List.mem_singleton] at hb
    exact hmem (hb ▸ ha)

lemma nodup_keys_foldl_dinsert {α : Type} (f : GenerationSource → α) :
    ∀ (l : List GenerationSource) (init : List (String × α)),
      (init.map Prod.fst).Nodup →
      ((l.foldl (fun d s => dinsert s.name (f s) d) init).map Prod.fst).Nodup
  | [], _, h => h
  | _ :: rest, _, h =>
      nodup_keys_foldl_dinsert f rest _ (nodup_keys_dinsert _ _ _ h)

lemma keys_foldl_dinsert {α β : Type} (f : GenerationSource → α) (g : GenerationSource → β) :
    ∀ (l : List GenerationSource) (d1 : List (String × α)) (d2 : List (String × β)),
      d1.map Prod.fst = d2.map Prod.fst →
      (l.foldl (fun d s => dinsert s.name (f s) d) d1).map Prod.fst =
        (l.foldl (fun d s => dinsert s.name (g s) d) d2).map Prod.fst
  | [], _, _, h => h
  | _ :: rest, _, _, h =>
      keys_foldl_dinsert f g rest _ _ (by rw [keys_dinsert, keys_dinsert, h])

lemma foldl_dinsert_cons_of_ne {α : Type} (F : String × ℚ → α) (k : String) (x : α) :
    ∀ (ws : List (String × ℚ)) (a : List (String × α)), (∀ p ∈ ws, p.1 ≠ k) →
      ws.foldl (fun a p => dinsert p.1 (F p) a) ((k, x) :: a) =
        (k, x) :: ws.foldl (fun a p => dinsert p.1 (F p) a) a
  | [], _, _ => rfl
  | p :: rest, a, h => by
      have hp : ¬ (k = p.1) := fun hh => h p (List.mem_cons_self _ _) hh.symm
      simp only [List.foldl_cons]
      rw [show dinsert p.1 (F p) ((k, x) :: a) = (k, x) :: dinsert p.1 (F p) a from by
        simp [dinsert, hp]]
      exact foldl_dinsert_cons_of_ne F k x rest _
        fun q hq => h q (List.mem_cons_of_mem _ hq)

lemma foldl_dinsert_eq_map {α : Type} (G : String × ℚ → α) :
    ∀ (ws : List (String × ℚ)) (a0 : List (String × α)),
      (ws.map Prod.fst).Nodup → a0.map Prod.fst = ws.map Prod.fst →
      ws.foldl (fun a p => dinsert p.1 (G p) a) a0 = ws.map fun p => (p.1, G p)
  | [], a0, _, hk => by
      have : a0 = [] := by simpa using hk
      simp [this]
  | (k, w) :: rest, a0, hnd, hk => by
      cases a0 with
      | nil => simp at hk
      | cons q a0t =>
          obtain ⟨k0, x⟩ := q
          simp only [List.map_cons, List.cons.injEq] at hk
          obtain ⟨hk0, hkt⟩ := hk
          subst hk0
          have hnd' : (k0 :: rest.map Prod.fst).Nodup := by simpa using hnd
          obtain ⟨hknotin, hndr⟩ := List.nodup_cons.mp hnd'
          simp only [List.foldl_cons]
          rw [show dinsert k0 (G (k0, w)) ((k0, x) :: a0t) = (k0, G (k0, w)) :: a0t from by
            simp [dinsert]]
          rw [foldl_dinsert_cons_of_ne G k0 (G (k0, w)) rest a0t
            (fun q hq he => hknotin (he ▸ List.mem_map_of_mem Prod.fst hq))]
          rw [foldl_dinsert_eq_map G rest a0t hndr hkt]
          simp

lemma foldl_pair_split {α β γ : Type} (f : α → γ → α) (h : β → γ → β) :
    ∀ (l : List γ) (ab : α × β),
      l.foldl (fun ab c => (f ab.1 c, h ab.2 c)) ab = (l.foldl f ab.1, l.foldl h ab.2)
  | [], _ => rfl
  | _ :: rest, _ => by
      simp only [List.foldl_cons]
      exact foldl_pair_split f h rest _

lemma expandCapacity_eq (y : ℤ) (g : ℚ) (ws : List (String × ℚ))
    (st : List (String × ℚ) × Vintages) :
    expandCapacity y g ws st =
      (ws.foldl (fun a p => dinsert p.1 (g * p.2) a) st.1,
       ws.foldl (fun v p => dmodify p.1 (fun es => es ++ [(y, g * p.2)]) v) st.2) := by
  unfold expandCapacity
  exact foldl_pair_split (fun a p => dinsert p.1 (g * p.2) a)
    (fun v p => dmodify p.1 (fun es => es ++ [(y, g * p.2)]) v) ws st

lemma dget_foldl_dmodify_notmem {α : Type} (G : String × ℚ → α → α) :
    ∀ (ws : List (String × ℚ)) (v : List (String × α)) (n : String),
      n ∉ ws.map Prod.fst →
      dget n (ws.foldl (fun v p => dmodify p.1 (G p) v) v) = dget n v
  | [], _, _, _ => rfl
  | p :: rest, v, n, h => by
      simp only [List.map_cons, List.mem_cons, not_or] at h
      simp only [List.foldl_cons]
      rw [dget_foldl_dmodify_notmem G rest _ n h.2,
        dget_dmodify_ne n p.1 (G p) (fun he => h.1 he.symm)]

lemma dget_foldl_dmodify {α : Type} (G : String × ℚ → α → α) :
    ∀ (ws : List (String × ℚ)) (v : List (String × α)) (n : String) (w : ℚ),
      (ws.map Prod.fst).Nodup → dget n ws = some w →
      dget n (ws.foldl (fun v p => dmodify p.1 (G p) v) v) = (dget n v).map (G (n, w))
  | [], _, _, _, _, hw => by simp [dget] at hw
  | (k, wk) :: rest, v, n, w, hnd, hw => by
      have hnd' : (k :: rest.map Prod.fst).Nodup := by simpa using hnd
      obtain ⟨hknotin, hndr⟩ := List.nodup_cons.mp hnd'
      by_cases h : k = n
      · subst h
        have hw' : wk = w := by simpa [dget] using hw
        subst hw'
        simp only [List.foldl_cons]
        rw [dget_foldl_dmodify_notmem G rest _ k hknotin, dget_dmodify_self]
      · have hw2 : dget n rest = some w := by simpa [dget, h] using hw
        simp only [List.foldl_cons]
        rw [dget_foldl_dmodify G rest _ n w hndr hw2, dget_dmodify_ne n k _ h]

lemma sum_map_const {α : Type} (l : List α) (c : ℚ) :
    (l.map fun _ => c).sum = l.length * c := by
  induction l with
  | nil => simp
  | cons a t ih => simp [ih]; ring

lemma sum_map_div (l : List (String × ℚ)) (t : ℚ) :
    (l.map fun p => p.2 / t).sum = (l.map Prod.snd).sum / t := by
  induction l with
  | nil => simp
  | cons a t' ih => simp [ih, add_div]

lemma vals_map_pair {α : Type} (l : List (String × ℚ)) (g : String × ℚ → α) :
    ((l.map fun p => (p.1, g p)).map Prod.snd) = l.map g := by
  induction l with
  | nil => rfl
  | cons a t ih => simp [ih]

lemma keys_map_pair {α β : Type} (l : List (String × β)) (g : String × β → α) :
    ((l.map fun p => (p.1, g p)).map Prod.fst) = l.map Prod.fst := by
  induction l with
  | nil => rfl
  | cons a t ih => simp [ih]

/-- The growth weights of a non-empty source list sum to exactly 1: initial
capacity shares when the total initial capacity is positive, an equal split
otherwise. -/
lemma sum_buildGrowthWeights (sources : List GenerationSource) (hne : sources ≠ []) :
    ((buildGrowthWeights sources).map Prod.snd).sum = 1 := by
  have hcap : sources.foldl (fun d s => dinsert s.name s.capacity_mw d) [] ≠ [] := by
    cases sources with
    | nil => exact absurd rfl hne
    | cons s rest =>
        simp only [List.foldl_cons]
        exact foldl_dinsert_ne_nil _ rest _ (dinsert_ne_nil _ _ _)
  unfold buildGrowthWeights
  dsimp only
  split_ifs with h
  · rw [vals_map_pair, sum_map_const]
    have hlen : (sources.foldl (fun d s => dinsert s.name s.capacity_mw d) []).length ≠ 0 := by
      simpa [List.length_eq_zero] using hcap
    rw [Nat.max_eq_left (Nat.one_le_iff_ne_zero.mpr hlen)]
    rw [div_eq_mul_inv, one_mul]
    exact mul_inv_cancel₀ (by exact_mod_cast hlen)
  · push_neg at h
    rw [vals_map_pair]
    rw [show (fun p : String × ℚ =>
        p.2 / ((sources.foldl (fun d s => dinsert s.name s.capacity_mw d) []).map
          Prod.snd).sum) = fun p : String × ℚ =>
        p.2 / ((sources.foldl (fun d s => dinsert s.name s.capacity_mw d) []).map
          Prod.snd).sum from rfl]
    rw [sum_map_div]
    exact div_self (ne_of_gt h)

/-- C4: whenever a year's required firm capacity exceeds the current total
live capacity, the shortfall is distributed across all sources with the growth
weights built once from the initial capacity shares (`buildGrowthWeights`,
which `simulateScenario` computes a single time before the per-year loop):
the per-source allocated additions sum exactly to the shortfall, the resulting
ledger is exactly the one produced by the expansion loop, and each source's
ledger gains one new vintage dated at the current year carrying
`shortfall · weight`. -/
theorem expansion_distributes_shortfall (sources : List GenerationSource)
    (reserve_margin : ℚ) (v : Vintages) (year : ℤ) (demand : ℚ)
    (hne : sources ≠ []) :
    let bs := sources.foldl (fun d s => dinsert s.name s d) []
    let gw := buildGrowthWeights sources
    let v1 := (retireCapacity v bs year).1
    let total := ((currentCapacity v1).map Prod.snd).sum
    let required := demand / 8760 * (1 + reserve_margin)
    let shortfall := required - total
    total < required →
      (((expandCapacity year shortfall gw (bs.map fun p => (p.1, (0 : ℚ)), v1)).1.map
          Prod.snd).sum = shortfall ∧
       (stepYear bs gw reserve_margin v year demand).1 =
         (expandCapacity year shortfall gw (bs.map fun p => (p.1, (0 : ℚ)), v1)).2 ∧
       ∀ n w es, dget n gw = some w → dget n v1 = some es →
         dget n (stepYear bs gw reserve_margin v year demand).1 =
           some (es ++ [(year, shortfall * w)])) := by
  intro bs gw v1 total required shortfall hgt
  have hcapskeys : (buildGrowthWeights sources).map Prod.fst =
      (sources.foldl (fun d s => dinsert s.name s.capacity_mw d) []).map Prod.fst := by
    unfold buildGrowthWeights
    dsimp only
    split_ifs <;> rw [keys_map_pair]
  have hndcaps : ((sources.foldl (fun d s => dinsert s.name s.capacity_mw d) []).map
      Prod.fst).Nodup :=
    nodup_keys_foldl_dinsert _ sources [] (by simp)
  have hndgw : ((buildGrowthWeights sources).map Prod.fst).Nodup := by
    rw [hcapskeys]; exact hndcaps
  have hadded0 : ((sources.foldl (fun d s => dinsert s.name s d) []).map
      fun p => (p.1, (0 : ℚ))).map Prod.fst = (buildGrowthWeights sources).map Prod.fst := by
    rw [keys_map_pair, hcapskeys]
    exact keys_foldl_dinsert _ _ sources [] [] rfl
  have hmapped : (expandCapacity year shortfall gw
      (bs.map fun p => (p.1, (0 : ℚ)), v1)).1 =
      gw.map fun p => (p.1, shortfall * p.2) := by
    rw [expandCapacity_eq]
    exact foldl_dinsert_eq_map (fun p => shortfall * p.2) gw _ hndgw hadded0
  have hstep : (stepYear bs gw reserve_margin v year demand).1 =
      (expandCapacity year shortfall gw (bs.map fun p => (p.1, (0 : ℚ)), v1)).2 := by
    simp only [stepYear]
    split_ifs with hc
    · rfl
    · exact absurd hgt hc
  refine ⟨?_, hstep, ?_⟩
  · rw [hmapped, vals_map_pair, List.sum_map_mul_left, sum_buildGrowthWeights sources hne,
      mul_one]
  · intro n w es hgw hv1
    rw [hstep, expandCapacity_eq]
    rw [dget_foldl_dmodify (fun p es => es ++ [(year, shortfall * p.2)]) gw v1 n w hndgw hgw,
      hv1]
    rfl

/-- Witness for `expansion_distributes_shortfall`: sources of 75 MW and 25 MW
(weights 3/4 and 1/4), required capacity 200 MW against 100 MW live, so the
100 MW shortfall adds a new 75 MW vintage to source `"a"` dated at the current
year. -/
theorem expansion_distributes_shortfall_witness :
    dget "a" (stepYear
      [("a", ⟨"a", 75, 1, 0, 0, 0, 30⟩), ("b", ⟨"b", 25, 1, 0, 1, 0, 30⟩)]
      (buildGrowthWeights [⟨"a", 75, 1, 0, 0, 0, 30⟩, ⟨"b", 25, 1, 0, 1, 0, 30⟩]) 0
      [("a", [((2025 : ℤ), (75 : ℚ))]), ("b", [(2025, 25)])] 2025 1752000).1 =
      some [((2025 : ℤ), (75 : ℚ)), (2025, 75)] := by
  have h := expansion_distributes_shortfall
    [⟨"a", 75, 1, 0, 0, 0, 30⟩, ⟨"b", 25, 1, 0, 1, 0, 30⟩] 0
    [("a", [((2025 : ℤ), (75 : ℚ))]), ("b", [(2025, 25)])] 2025 1752000 (by simp)
  dsimp only at h
  obtain ⟨-, -, h3⟩ := h (by
    norm_num +decide [retireCapacity, currentCapacity, lifetimeOf, dget, dinsert,
      List.foldl_cons, List.foldl_nil])
  have h4 := h3 "a" (3/4) [((2025 : ℤ), (75 : ℚ))]
    (by norm_num +decide [buildGrowthWeights, dget, dinsert,
      List.foldl_cons, List.foldl_nil])
    (by norm_num +decide [retireCapacity, lifetimeOf, dget, dinsert,
      List.foldl_cons, List.foldl_nil])
  exact h4.trans (by
    norm_num +decide [retireCapacity, currentCapacity, lifetimeOf, dget, dinsert,
      List.foldl_cons, List.foldl_nil])

end Decarb
